import Mathlib

/-!
Shallow embedding of the annotation editor (`ScreenshotEditor` component) of the
issue-reporter repository.

The component keeps React state `tool`, `color`, `isDrawing`, `startPoint`,
`imageData` (the pixel-buffer snapshot taken at pointer-down), `penPath`, plus the
2D canvas and its context.  The pointer handlers (`handleMouseDown`,
`handleMouseMove`, `handleMouseUp`), the save handler and the load effect are
translated below as pure state transformers.  Conventions of the embedding:

* JavaScript numbers are modelled as real numbers `ℝ`.
* The canvas pixel buffer is modelled as a journal `Canvas`: the blank initial
  buffer, `drawImage` of a decoded image, and a list of applied 2D-context draw
  operations.  `getImageData` returns the whole journal (a full-buffer copy) and
  `putImageData` replaces the buffer with a saved copy, exactly as the code uses
  them (always on the full canvas at the origin).
* The persistent 2D-context attributes the handlers touch (`strokeStyle`,
  `fillStyle`, `lineWidth`, `lineCap`, `lineJoin`) are carried in `CtxState`;
  every draw operation records the attribute values in force when it was issued.
* Browser-performed asynchronous steps are passed in as parameters: the decode
  outcome of the source blob for the load effect, and the `toBlob` encode outcome
  for the save handler.
* Events deliver points already in canvas coordinates; `getMousePos`'s
  client-to-canvas scaling is outside the embedded state machine, which is
  expressed directly over canvas-space points as the spec's properties are.
-/

noncomputable section

open Classical

/-- A 2D point, as produced by `getMousePos`. -/
structure Pt where
  x : ℝ
  y : ℝ

/-- `type DrawingTool = 'arrow' | 'rectangle' | 'circle' | 'pen' | 'text'`. -/
inductive DrawingTool where
  | arrow
  | rectangle
  | circle
  | pen
  | text
deriving DecidableEq

/-- `type DrawingColor = 'red' | 'blue' | 'green' | 'yellow' | 'black'`. -/
inductive DrawingColor where
  | red
  | blue
  | green
  | yellow
  | black
deriving DecidableEq

/-- `getColorValue`: the fixed color-name-to-hex table. -/
def getColorValue : DrawingColor → String
  | .red => "#FF0000"
  | .blue => "#0000FF"
  | .green => "#00FF00"
  | .yellow => "#FFFF00"
  | .black => "#000000"

/-- The persistent 2D-context attributes the handlers read or write. -/
structure CtxState where
  strokeStyle : String
  fillStyle : String
  lineWidth : ℝ
  lineCap : String
  lineJoin : String

/-- Fresh-context defaults of the 2D canvas API. -/
def initCtx : CtxState := ⟨"#000000", "#000000", 1, "butt", "miter"⟩

/-- One issued drawing operation, together with the context attributes in force. -/
inductive DrawOp where
  | strokeLine (p q : Pt) (st : CtxState)
  | fillTri (a b c : Pt) (st : CtxState)
  | strokeRect (x y w h : ℝ) (st : CtxState)
  | strokeCircle (c : Pt) (r : ℝ) (st : CtxState)

/-- The canvas pixel buffer as a journal of how it was produced. -/
inductive Canvas where
  | blank
  | drawnImage (img : ℕ) (c : Canvas)
  | op (o : DrawOp) (c : Canvas)

/-- Apply a list of draw operations in order. -/
def applyOps (ops : List DrawOp) (c : Canvas) : Canvas :=
  ops.foldl (fun acc o => Canvas.op o acc) c

/-- `Math.atan2(y, x)`, embedded as the argument of the complex number `x + y i`. -/
def atan2 (y x : ℝ) : ℝ := Complex.arg ⟨x, y⟩

/-- The `angle` computed in `drawArrow`: `Math.atan2(to.y - from.y, to.x - from.x)`. -/
def arrowAngle (p q : Pt) : ℝ := atan2 (q.y - p.y) (q.x - p.x)

/-- First back vertex of the arrow head (the `angle - Math.PI / 6` line-to);
`headLength` is the fixed 20 of `drawArrow`. -/
def arrowHead1 (p q : Pt) : Pt :=
  ⟨q.x - 20 * Real.cos (arrowAngle p q - Real.pi / 6),
   q.y - 20 * Real.sin (arrowAngle p q - Real.pi / 6)⟩

/-- Second back vertex of the arrow head (the `angle + Math.PI / 6` line-to). -/
def arrowHead2 (p q : Pt) : Pt :=
  ⟨q.x - 20 * Real.cos (arrowAngle p q + Real.pi / 6),
   q.y - 20 * Real.sin (arrowAngle p q + Real.pi / 6)⟩

/-- `drawArrow(from, to, ctx)`: stroke the shaft, then fill the triangular head
whose path is `to`, the two back vertices, and back to `to`. -/
def drawArrow (p q : Pt) (st : CtxState) : List DrawOp :=
  [.strokeLine p q st, .fillTri q (arrowHead1 p q) (arrowHead2 p q) st]

/-- Euclidean distance, the `Math.sqrt(dx*dx + dy*dy)` formula of the circle case. -/
def ptDist (p q : Pt) : ℝ := Real.sqrt ((p.x - q.x) ^ 2 + (p.y - q.y) ^ 2)

/-- Context attributes set by the shape branch of `handleMouseMove`:
`strokeStyle`, `fillStyle` and `lineWidth = 3`. -/
def shapeCtx (col : DrawingColor) (st : CtxState) : CtxState :=
  { st with strokeStyle := getColorValue col, fillStyle := getColorValue col, lineWidth := 3 }

/-- Context attributes set by the pen branch of `handleMouseMove`:
`strokeStyle`, `lineWidth = 3`, round cap and join. -/
def penCtx (col : DrawingColor) (st : CtxState) : CtxState :=
  { st with strokeStyle := getColorValue col, lineWidth := 3,
            lineCap := "round", lineJoin := "round" }

/-- The `switch (tool)` of `handleMouseMove` after the snapshot restore: the
operations drawn from the stroke start `sp` to the current point `pt`.  `pen` is
handled before the switch and `text` has no case, so both draw nothing. -/
def shapeOps (tool : DrawingTool) (st : CtxState) (sp pt : Pt) : List DrawOp :=
  match tool with
  | .arrow => drawArrow sp pt st
  | .rectangle => [.strokeRect sp.x sp.y (pt.x - sp.x) (pt.y - sp.y) st]
  | .circle =>
      [.strokeCircle sp (Real.sqrt ((pt.x - sp.x) ^ 2 + (pt.y - sp.y) ^ 2)) st]
  | .pen => []
  | .text => []

/-- The editor's state: the React state hooks, the canvas buffer, and the
persistent context attributes.  `ctxReady` records whether `getContext('2d')`
succeeded (the `ctx` state hook being non-null). -/
structure EditorState where
  ctxReady : Bool
  tool : DrawingTool
  color : DrawingColor
  isDrawing : Bool
  startPoint : Option Pt
  imageData : Option Canvas
  penPath : List Pt
  canvas : Canvas
  ctxState : CtxState

/-- The initial hook values: `tool = 'arrow'`, `color = 'red'`, `isDrawing = false`,
`startPoint = null`, `imageData = null`, `penPath = []`, and a blank canvas. -/
def initState : EditorState :=
  ⟨false, .arrow, .red, false, none, none, [], .blank, initCtx⟩

/-- The load effect: acquire the 2D context (`ctxOk` is whether `getContext`
returned one), then decode the screenshot blob.  `decoded` is the browser's
decode outcome; on success `img.onload` resizes the canvas (which clears it) and
draws the image at the origin; on failure `onload` never fires and nothing else
runs, so the canvas is left as it was. -/
def loadEffect (ctxOk : Bool) (decoded : Option ℕ) (s : EditorState) : EditorState :=
  match ctxOk with
  | false => s
  | true =>
      match decoded with
      | none => { s with ctxReady := true }
      | some img => { s with ctxReady := true, canvas := Canvas.drawnImage img Canvas.blank }

/-- `handleMouseDown`: bail out when there is no context; otherwise start a
stroke session — set `isDrawing`, record the start point, snapshot the buffer
with `getImageData`, and seed the pen path when the tool is `pen`. -/
def handleMouseDown (pt : Pt) (s : EditorState) : EditorState :=
  match s.ctxReady with
  | false => s
  | true =>
      { s with isDrawing := true, startPoint := some pt, imageData := some s.canvas,
               penPath := if s.tool = DrawingTool.pen then [pt] else s.penPath }

/-- `handleMouseMove`: the guard `if (!ctx || !isDrawing || !startPoint ||
!imageData) return` is the outer match.  For `pen`, append the point and stroke
one segment from the last recorded point directly onto the buffer.  For the
other tools, `putImageData` the snapshot back, set the styles, and run the
shape switch (`shapeOps`).  When the pen path is empty, the code would fault
reading `penPath[-1]`; that branch is unreachable because pointer-down seeded
the path, and is embedded as the identity. -/
def handleMouseMove (pt : Pt) (s : EditorState) : EditorState :=
  match s.ctxReady, s.isDrawing, s.startPoint, s.imageData with
  | true, true, some sp, some snap =>
      if s.tool = DrawingTool.pen then
        match s.penPath.getLast? with
        | some lastPt =>
            { s with penPath := s.penPath ++ [pt],
                     canvas := Canvas.op (.strokeLine lastPt pt (penCtx s.color s.ctxState)) s.canvas,
                     ctxState := penCtx s.color s.ctxState }
        | none => s
      else
        { s with canvas := applyOps (shapeOps s.tool (shapeCtx s.color s.ctxState) sp pt) snap,
                 ctxState := shapeCtx s.color s.ctxState }
  | _, _, _, _ => s

/-- `handleMouseUp`: unconditionally end the stroke session. -/
def handleMouseUp (s : EditorState) : EditorState :=
  { s with isDrawing := false, startPoint := none, imageData := none, penPath := [] }

/-- The PNG blob `canvas.toBlob` hands to its callback, carrying the encoded
buffer contents. -/
structure Blob where
  data : Canvas

/-- A callback the editor fires towards its caller: `onSave(blob)` or `onCancel()`. -/
inductive Output where
  | saved (b : Blob)
  | cancelled

/-- `handleSave`: `canvas.toBlob((blob) => { if (blob) onSave(blob) }, 'image/png')`.
`encodeResult` is the browser's encode outcome; the state is untouched and
`onSave` fires only when a blob was produced. -/
def handleSave (encodeResult : Option Blob) (s : EditorState) : EditorState × List Output :=
  (s, match encodeResult with
      | some b => [Output.saved b]
      | none => [])

/-- The user-interface events the component wires up. -/
inductive Event where
  | mouseDown (pt : Pt)
  | mouseMove (pt : Pt)
  | mouseUp
  | mouseLeave
  | saveClick (encodeResult : Option Blob)
  | cancelClick
  | selectTool (t : DrawingTool)
  | selectColor (c : DrawingColor)

/-- The component's event wiring: `onMouseDown={handleMouseDown}`,
`onMouseMove={handleMouseMove}`, `onMouseUp={handleMouseUp}`,
`onMouseLeave={handleMouseUp}`, the save button calling `handleSave`, the cancel
button calling `onCancel` directly, and the toolbar buttons calling `setTool` /
`setColor`. -/
def dispatch : Event → EditorState → EditorState × List Output
  | .mouseDown pt, s => (handleMouseDown pt s, [])
  | .mouseMove pt, s => (handleMouseMove pt s, [])
  | .mouseUp, s => (handleMouseUp s, [])
  | .mouseLeave, s => (handleMouseUp s, [])
  | .saveClick r, s => handleSave r s
  | .cancelClick, s => (s, [Output.cancelled])
  | .selectTool t, s => ({ s with tool := t }, [])
  | .selectColor c, s => ({ s with color := c }, [])

/-- Feed a sequence of pointer-move events to the editor. -/
def applyMoves (moves : List Pt) (s : EditorState) : EditorState :=
  moves.foldl (fun st p => handleMouseMove p st) s

/-- One full drag gesture: pointer-down at `start`, the given pointer-moves,
then pointer-up. -/
def runDrag (start : Pt) (moves : List Pt) (s : EditorState) : EditorState :=
  handleMouseUp (applyMoves moves (handleMouseDown start s))

/-- The last element of a pointer-move sequence (the drag's end point). -/
def lastP : List Pt → Option Pt
  | [] => none
  | [p] => some p
  | _ :: q :: r => lastP (q :: r)

/-- The segments between consecutive points of a recorded pen path. -/
def penSegs (st : CtxState) : List Pt → List DrawOp
  | p :: q :: r => DrawOp.strokeLine p q st :: penSegs st (q :: r)
  | _ => []

/-- The closed segment between two points. -/
def mySeg (p q : Pt) : Set Pt :=
  {r | ∃ t : ℝ, 0 ≤ t ∧ t ≤ 1 ∧ r = ⟨p.x + t * (q.x - p.x), p.y + t * (q.y - p.y)⟩}

/-- All points within half the line width of a path: the pixels a stroke of the
path covers (stroke geometry taken with round caps and joins). -/
def thicken (path : Set Pt) (hw : ℝ) : Set Pt :=
  {p | ∃ q ∈ path, ptDist p q ≤ hw}

/-- The rectangle path `rect(x, y, w, h)` traces: the four sides between the
corners `(x, y)` and `(x + w, y + h)`, in path order. -/
def rectPath (x y w h : ℝ) : Set Pt :=
  mySeg ⟨x, y⟩ ⟨x + w, y⟩ ∪ mySeg ⟨x + w, y⟩ ⟨x + w, y + h⟩ ∪
    mySeg ⟨x + w, y + h⟩ ⟨x, y + h⟩ ∪ mySeg ⟨x, y + h⟩ ⟨x, y⟩

/-- The circle path `arc(c, r, 0, 2π)` traces. -/
def circlePath (c : Pt) (r : ℝ) : Set Pt := {p | ptDist p c = r}

/-- The filled triangle with the given vertices (its convex hull, by
barycentric coordinates). -/
def triFill (a b c : Pt) : Set Pt :=
  {p | ∃ u v w : ℝ, 0 ≤ u ∧ 0 ≤ v ∧ 0 ≤ w ∧ u + v + w = 1 ∧
        p.x = u * a.x + v * b.x + w * c.x ∧ p.y = u * a.y + v * b.y + w * c.y}

/-- The set of pixels a draw operation covers. -/
def opRegion : DrawOp → Set Pt
  | .strokeLine p q st => thicken (mySeg p q) (st.lineWidth / 2)
  | .fillTri a b c _ => triFill a b c
  | .strokeRect x y w h st => thicken (rectPath x y w h) (st.lineWidth / 2)
  | .strokeCircle c r st => thicken (circlePath c r) (st.lineWidth / 2)

/-- The color a draw operation paints: the stroke style for strokes, the fill
style for fills. -/
def opPaint : DrawOp → String
  | .strokeLine _ _ st => st.strokeStyle
  | .fillTri _ _ _ st => st.fillStyle
  | .strokeRect _ _ _ _ st => st.strokeStyle
  | .strokeCircle _ _ st => st.strokeStyle

/-- Rasterize the canvas journal: the color visible at a point, given the pixels
of each decoded source image.  Later operations paint over earlier content. -/
def render (imgPx : ℕ → Pt → Option String) : Canvas → Pt → Option String
  | .blank, _ => none
  | .drawnImage i c, p =>
      match imgPx i p with
      | some col => some col
      | none => render imgPx c p
  | .op o c, p => if p ∈ opRegion o then some (opPaint o) else render imgPx c p

/-- A stroke session exists exactly when a drag is in progress: `isDrawing` is
true iff the start point and the snapshot are both non-null. -/
def sessionInv (s : EditorState) : Prop :=
  s.isDrawing = true ↔ (s.startPoint ≠ none ∧ s.imageData ≠ none)

lemma handleMouseMove_session_fields (pt : Pt) (s : EditorState) :
    (handleMouseMove pt s).isDrawing = s.isDrawing ∧
    (handleMouseMove pt s).startPoint = s.startPoint ∧
    (handleMouseMove pt s).imageData = s.imageData := by
  unfold handleMouseMove
  split
  · split
    · split <;> exact ⟨rfl, rfl, rfl⟩
    · exact ⟨rfl, rfl, rfl⟩
  · exact ⟨rfl, rfl, rfl⟩

/-- Claim C9: the component wires `onMouseLeave={handleMouseUp}`, so handling a
pointer-leave event in any editor state produces exactly the same resulting
state and outputs as handling a pointer-up event in that state. -/
theorem mouseLeave_eq_mouseUp (s : EditorState) :
    dispatch Event.mouseLeave s = dispatch Event.mouseUp s := rfl

/-- Claim C8: a pointer-move received while no stroke session is active
(`isDrawing` false, or the start point or the snapshot absent) is a no-op: the
whole editor state, the canvas buffer included, is unchanged. -/
theorem mouseMove_inactive_noop (pt : Pt) (s : EditorState)
    (h : s.isDrawing = false ∨ s.startPoint = none ∨ s.imageData = none) :
    handleMouseMove pt s = s := by
  obtain ⟨cr, tl, col, dr, sp0, sn0, pp, cv, cs⟩ := s
  cases cr <;> cases dr <;> cases sp0 <;> cases sn0 <;> first | rfl | simp_all

/-- Witness for C8 at the initial state and the origin point. -/
theorem mouseMove_inactive_noop_applied :
    (initState.isDrawing = false ∨ initState.startPoint = none ∨
      initState.imageData = none) ∧
    handleMouseMove ⟨0, 0⟩ initState = initState :=
  ⟨Or.inl rfl, mouseMove_inactive_noop ⟨0, 0⟩ initState (Or.inl rfl)⟩

/-- Claim C4: the session invariant (`isDrawing` true iff start point and
snapshot are non-null) holds after every event-handler invocation when it held
before, and pointer-up (like pointer-leave, which runs the same handler)
discards the session: `isDrawing` false and start point, snapshot and pen path
all cleared. -/
theorem stroke_session_invariant (e : Event) (s : EditorState) (hinv : sessionInv s) :
    sessionInv (dispatch e s).1 ∧
    (dispatch Event.mouseUp s).1.isDrawing = false ∧
    (dispatch Event.mouseUp s).1.startPoint = none ∧
    (dispatch Event.mouseUp s).1.imageData = none ∧
    (dispatch Event.mouseUp s).1.penPath = [] ∧
    (dispatch Event.mouseLeave s).1 = (dispatch Event.mouseUp s).1 := by
  refine ⟨?_, rfl, rfl, rfl, rfl, rfl⟩
  cases e with
  | mouseDown pt =>
      show sessionInv (handleMouseDown pt s)
      cases hcr : s.ctxReady with
      | false => simpa [handleMouseDown, hcr] using hinv
      | true => simp [handleMouseDown, hcr, sessionInv]
  | mouseMove pt =>
      show sessionInv (handleMouseMove pt s)
      obtain ⟨h1, h2, h3⟩ := handleMouseMove_session_fields pt s
      unfold sessionInv
      rw [h1, h2, h3]
      exact hinv
  | mouseUp => simp [dispatch, handleMouseUp, sessionInv]
  | mouseLeave => simp [dispatch, handleMouseUp, sessionInv]
  | saveClick r => exact hinv
  | cancelClick => exact hinv
  | selectTool t => exact hinv
  | selectColor c => exact hinv

/-- Witness for C4 at the initial state and a pointer-up event. -/
theorem stroke_session_invariant_applied :
    sessionInv initState ∧
    (sessionInv (dispatch Event.mouseUp initState).1 ∧
     (dispatch Event.mouseUp initState).1.isDrawing = false ∧
     (dispatch Event.mouseUp initState).1.startPoint = none ∧
     (dispatch Event.mouseUp initState).1.imageData = none ∧
     (dispatch Event.mouseUp initState).1.penPath = [] ∧
     (dispatch Event.mouseLeave initState).1 = (dispatch Event.mouseUp initState).1) := by
  have h : sessionInv initState := by simp [sessionInv, initState]
  exact ⟨h, stroke_session_invariant Event.mouseUp initState h⟩

/-- Claim C3 (divergence evidence): when PNG encoding produces no blob, the save
click is a silent no-op — the state is unchanged and neither `onSave` nor
`onCancel` fires, so nothing reports "no artifact produced" to the caller. -/
theorem save_encode_failure_silent (s : EditorState) :
    dispatch (Event.saveClick none) s = (s, []) := rfl

/-- Claim C10: a save click leaves the state (hence the canvas) unchanged,
fires at most one callback, only ever hands `onSave` the blob the encoder
actually produced, never fires `onCancel`, and fires nothing at all when the
encoder produced no blob. -/
theorem save_callback_discipline (enc : Option Blob) (s : EditorState) :
    (dispatch (Event.saveClick enc) s).1 = s ∧
    (dispatch (Event.saveClick enc) s).2.length ≤ 1 ∧
    (∀ b : Blob, Output.saved b ∈ (dispatch (Event.saveClick enc) s).2 → enc = some b) ∧
    Output.cancelled ∉ (dispatch (Event.saveClick enc) s).2 ∧
    (enc = none → (dispatch (Event.saveClick enc) s).2 = []) := by
  cases enc <;> simp [dispatch, handleSave]

/-- Witness for C10: a failed encode at the initial state fires no callback. -/
theorem save_callback_discipline_applied :
    (dispatch (Event.saveClick none) initState).2 = [] :=
  (save_callback_discipline none initState).2.2.2.2 rfl

/-- Claim C7: when the source blob fails to decode, the load effect leaves the
canvas exactly as it was — blank for a freshly mounted editor — and the cancel
button still notifies the caller.  The load path is a total function of the
decode outcome: the code installs only an `onload` callback, so a decode
failure runs nothing and raises nothing. -/
theorem decode_failure_blank_canvas (ctxOk : Bool) (s : EditorState) :
    (loadEffect ctxOk none s).canvas = s.canvas ∧
    (loadEffect ctxOk none initState).canvas = Canvas.blank ∧
    (dispatch Event.cancelClick (loadEffect ctxOk none s)).2 = [Output.cancelled] := by
  cases ctxOk <;> exact ⟨rfl, rfl, rfl⟩

lemma applyMoves_cons (p : Pt) (l : List Pt) (s : EditorState) :
    applyMoves (p :: l) s = applyMoves l (handleMouseMove p s) := rfl

lemma applyMoves_nil (s : EditorState) : applyMoves [] s = s := rfl

lemma shapeCtx_idem (col : DrawingColor) (cs : CtxState) :
    shapeCtx col (shapeCtx col cs) = shapeCtx col cs := rfl

lemma penCtx_idem (col : DrawingColor) (cs : CtxState) :
    penCtx col (penCtx col cs) = penCtx col cs := rfl

lemma handleMouseMove_shape_step (tl : DrawingTool)
    (ht : tl = DrawingTool.arrow ∨ tl = DrawingTool.rectangle ∨ tl = DrawingTool.circle)
    (col : DrawingColor) (p sp : Pt) (snap cv : Canvas) (pp : List Pt) (cs : CtxState) :
    handleMouseMove p ⟨true, tl, col, true, some sp, some snap, pp, cv, cs⟩ =
      ⟨true, tl, col, true, some sp, some snap, pp,
        applyOps (shapeOps tl (shapeCtx col cs) sp p) snap, shapeCtx col cs⟩ := by
  rcases ht with h | h | h <;> subst h <;> rfl

lemma handleMouseMove_pen_step (col : DrawingColor) (p sp lastPt : Pt) (snap cv : Canvas)
    (pp : List Pt) (cs : CtxState) (hlast : pp.getLast? = some lastPt) :
    handleMouseMove p ⟨true, DrawingTool.pen, col, true, some sp, some snap, pp, cv, cs⟩ =
      ⟨true, DrawingTool.pen, col, true, some sp, some snap, pp ++ [p],
        Canvas.op (.strokeLine lastPt p (penCtx col cs)) cv, penCtx col cs⟩ := by
  simp only [handleMouseMove]
  rw [hlast]
  simp

lemma applyMoves_shape (tl : DrawingTool)
    (ht : tl = DrawingTool.arrow ∨ tl = DrawingTool.rectangle ∨ tl = DrawingTool.circle)
    (col : DrawingColor) :
    ∀ (moves : List Pt) (fin sp : Pt) (snap cv : Canvas) (pp : List Pt) (cs : CtxState),
      lastP moves = some fin →
      applyMoves moves ⟨true, tl, col, true, some sp, some snap, pp, cv, cs⟩ =
        ⟨true, tl, col, true, some sp, some snap, pp,
          applyOps (shapeOps tl (shapeCtx col cs) sp fin) snap, shapeCtx col cs⟩ := by
  intro moves
  induction moves with
  | nil => intro fin sp snap cv pp cs h; simp [lastP] at h
  | cons p rest ih =>
      intro fin sp snap cv pp cs h
      cases rest with
      | nil =>
          simp only [lastP, Option.some.injEq] at h
          subst h
          rw [applyMoves_cons, applyMoves_nil]
          exact handleMouseMove_shape_step tl ht col p sp snap cv pp cs
      | cons q r =>
          have hl : lastP (q :: r) = some fin := h
          rw [applyMoves_cons, handleMouseMove_shape_step tl ht col p sp snap cv pp cs]
          rw [ih fin sp snap _ pp (shapeCtx col cs) hl, shapeCtx_idem]

lemma applyMoves_pen (col : DrawingColor) :
    ∀ (moves : List Pt) (sp lastPt : Pt) (snap cv : Canvas) (pp : List Pt) (cs : CtxState),
      pp.getLast? = some lastPt →
      (applyMoves moves ⟨true, DrawingTool.pen, col, true, some sp, some snap, pp, cv, cs⟩).canvas =
          applyOps (penSegs (penCtx col cs) (lastPt :: moves)) cv ∧
      (applyMoves moves ⟨true, DrawingTool.pen, col, true, some sp, some snap, pp, cv, cs⟩).penPath =
          pp ++ moves := by
  intro moves
  induction moves with
  | nil => intro sp lastPt snap cv pp cs h; exact ⟨rfl, by rw [applyMoves_nil]; simp⟩
  | cons p rest ih =>
      intro sp lastPt snap cv pp cs h
      rw [applyMoves_cons, handleMouseMove_pen_step col p sp lastPt snap cv pp cs h]
      have ih' := ih sp p snap (Canvas.op (.strokeLine lastPt p (penCtx col cs)) cv)
        (pp ++ [p]) (penCtx col cs) (List.getLast?_concat pp)
      rw [penCtx_idem] at ih'
      obtain ⟨ih1, ih2⟩ := ih'
      refine ⟨?_, ?_⟩
      · rw [ih1]; rfl
      · rw [ih2]; simp

lemma penSegs_length (st : CtxState) : ∀ l : List Pt, (penSegs st l).length = l.length - 1 := by
  intro l
  induction l with
  | nil => rfl
  | cons p t ih =>
      cases t with
      | nil => rfl
      | cons q r =>
          simp only [penSegs, List.length_cons] at ih ⊢
          omega

/-- Claim C1: for every drag with a shape tool (arrow, rectangle or circle) —
pointer-down at `start`, pointer-moves ending at `fin`, then pointer-up — the
canvas pixel buffer after pointer-up equals the snapshot taken at drag start
(the buffer at pointer-down) with exactly the one shape's draw operations
composited at the final (start, end) coordinates; no operations of the
intermediate preview frames remain, because every move restores the snapshot
before redrawing. -/
theorem shape_drag_final_canvas (s : EditorState) (start fin : Pt) (moves : List Pt)
    (hctx : s.ctxReady = true)
    (ht : s.tool = DrawingTool.arrow ∨ s.tool = DrawingTool.rectangle ∨
      s.tool = DrawingTool.circle)
    (hlast : lastP moves = some fin) :
    (runDrag start moves s).canvas =
      applyOps (shapeOps s.tool (shapeCtx s.color s.ctxState) start fin) s.canvas := by
  obtain ⟨cr, tl, col, dr, sp0, sn0, pp, cv, cs⟩ := s
  have hcr : cr = true := hctx
  subst hcr
  have ht' : tl = DrawingTool.arrow ∨ tl = DrawingTool.rectangle ∨ tl = DrawingTool.circle := ht
  have key := applyMoves_shape tl ht' col moves fin start cv cv
    (if tl = DrawingTool.pen then [start] else pp) cs hlast
  unfold runDrag
  rw [show handleMouseDown start (⟨true, tl, col, dr, sp0, sn0, pp, cv, cs⟩ : EditorState) =
        ⟨true, tl, col, true, some start, some cv,
          if tl = DrawingTool.pen then [start] else pp, cv, cs⟩ from rfl]
  rw [key]
  rfl

/-- Witness for C1: an arrow drag from the origin to (100, 0) on a freshly
loaded editor. -/
theorem shape_drag_final_canvas_applied :
    (loadEffect true (some 0) initState).ctxReady = true ∧
    ((loadEffect true (some 0) initState).tool = DrawingTool.arrow ∨
     (loadEffect true (some 0) initState).tool = DrawingTool.rectangle ∨
     (loadEffect true (some 0) initState).tool = DrawingTool.circle) ∧
    lastP [⟨100, 0⟩] = some ⟨100, 0⟩ ∧
    (runDrag ⟨0, 0⟩ [⟨100, 0⟩] (loadEffect true (some 0) initState)).canvas =
      applyOps (shapeOps (loadEffect true (some 0) initState).tool
          (shapeCtx (loadEffect true (some 0) initState).color
            (loadEffect true (some 0) initState).ctxState) ⟨0, 0⟩ ⟨100, 0⟩)
        (loadEffect true (some 0) initState).canvas :=
  ⟨rfl, Or.inl rfl, rfl,
    shape_drag_final_canvas _ ⟨0, 0⟩ ⟨100, 0⟩ [⟨100, 0⟩] rfl (Or.inl rfl) rfl⟩

/-- Claim C2: for every pen drag the recorded path is `start :: moves` (N
points), the final canvas equals the drag-start buffer with exactly N − 1 line
segments appended, one from each recorded point to the next in order, each
drawn with the pen context (3px width, round cap and join), and the snapshot is
never restored — the result is the original buffer term with segments stacked
on top. -/
theorem pen_drag_final_canvas (s : EditorState) (start : Pt) (moves : List Pt)
    (hctx : s.ctxReady = true) (htool : s.tool = DrawingTool.pen) :
    (runDrag start moves s).canvas =
      applyOps (penSegs (penCtx s.color s.ctxState) (start :: moves)) s.canvas ∧
    (applyMoves moves (handleMouseDown start s)).penPath = start :: moves ∧
    (penSegs (penCtx s.color s.ctxState) (start :: moves)).length =
      (start :: moves).length - 1 := by
  obtain ⟨cr, tl, col, dr, sp0, sn0, pp, cv, cs⟩ := s
  have hcr : cr = true := hctx
  subst hcr
  have htl : tl = DrawingTool.pen := htool
  subst htl
  have key := applyMoves_pen col moves start start cv cv [start] cs rfl
  refine ⟨?_, ?_, penSegs_length (penCtx col cs) (start :: moves)⟩
  · unfold runDrag
    rw [show handleMouseDown start
          (⟨true, DrawingTool.pen, col, dr, sp0, sn0, pp, cv, cs⟩ : EditorState) =
        ⟨true, DrawingTool.pen, col, true, some start, some cv, [start], cv, cs⟩ from rfl]
    exact key.1
  · rw [show handleMouseDown start
          (⟨true, DrawingTool.pen, col, dr, sp0, sn0, pp, cv, cs⟩ : EditorState) =
        ⟨true, DrawingTool.pen, col, true, some start, some cv, [start], cv, cs⟩ from rfl]
    rw [key.2]
    rfl

/-- Witness for C2: a one-move pen drag on a freshly loaded pen-tool editor. -/
theorem pen_drag_final_canvas_applied :
    (dispatch (Event.selectTool DrawingTool.pen) (loadEffect true (some 0) initState)).1.ctxReady
        = true ∧
    (dispatch (Event.selectTool DrawingTool.pen) (loadEffect true (some 0) initState)).1.tool
        = DrawingTool.pen ∧
    ((runDrag ⟨0, 0⟩ [⟨3, 4⟩]
        (dispatch (Event.selectTool DrawingTool.pen) (loadEffect true (some 0) initState)).1).canvas =
      applyOps (penSegs (penCtx
          (dispatch (Event.selectTool DrawingTool.pen) (loadEffect true (some 0) initState)).1.color
          (dispatch (Event.selectTool DrawingTool.pen) (loadEffect true (some 0) initState)).1.ctxState)
          [⟨0, 0⟩, ⟨3, 4⟩])
        (dispatch (Event.selectTool DrawingTool.pen) (loadEffect true (some 0) initState)).1.canvas ∧
     (applyMoves [⟨3, 4⟩] (handleMouseDown ⟨0, 0⟩
        (dispatch (Event.selectTool DrawingTool.pen) (loadEffect true (some 0) initState)).1)).penPath
        = [⟨0, 0⟩, ⟨3, 4⟩] ∧
     (penSegs (penCtx
          (dispatch (Event.selectTool DrawingTool.pen) (loadEffect true (some 0) initState)).1.color
          (dispatch (Event.selectTool DrawingTool.pen) (loadEffect true (some 0) initState)).1.ctxState)
          [⟨0, 0⟩, ⟨3, 4⟩]).length = ([⟨0, 0⟩, ⟨3, 4⟩] : List Pt).length - 1) :=
  ⟨rfl, rfl, pen_drag_final_canvas _ ⟨0, 0⟩ [⟨3, 4⟩] rfl rfl⟩

lemma headDist (qx qy A : ℝ) :
    Real.sqrt ((qx - 20 * Real.cos A - qx) ^ 2 + (qy - 20 * Real.sin A - qy) ^ 2) = 20 := by
  have hs := Real.sin_sq_add_cos_sq A
  rw [show (qx - 20 * Real.cos A - qx) ^ 2 + (qy - 20 * Real.sin A - qy) ^ 2 = 20 ^ 2 by
    nlinarith [hs]]
  exact Real.sqrt_sq (by norm_num)

lemma arrowAngle_horizontal : arrowAngle ⟨0, 0⟩ ⟨100, 0⟩ = 0 := by
  unfold arrowAngle atan2
  have h : (⟨(100 : ℝ) - 0, (0 : ℝ) - 0⟩ : ℂ) = ((100 : ℝ) : ℂ) := by
    apply Complex.ext <;> simp
  rw [h, Complex.arg_ofReal_of_nonneg (by norm_num)]

/-- Claim C5: `drawArrow` fills a triangular head at `to` whose two back
vertices lie at distance 20px from `to` and at angles ±30° (π/6) off the
reversed line direction (`angle + π ∓ π/6`); in particular for a drag from
(0,0) to (100,0) the vertices are (100 − 10√3, 10) and (100 − 10√3, −10). -/
theorem arrow_head_geometry :
    (∀ (p q : Pt) (st : CtxState),
        drawArrow p q st =
          [DrawOp.strokeLine p q st,
           DrawOp.fillTri q (arrowHead1 p q) (arrowHead2 p q) st]) ∧
    (∀ p q : Pt, ptDist (arrowHead1 p q) q = 20 ∧ ptDist (arrowHead2 p q) q = 20) ∧
    (∀ p q : Pt,
        arrowHead1 p q =
          ⟨q.x + 20 * Real.cos (arrowAngle p q + Real.pi - Real.pi / 6),
           q.y + 20 * Real.sin (arrowAngle p q + Real.pi - Real.pi / 6)⟩ ∧
        arrowHead2 p q =
          ⟨q.x + 20 * Real.cos (arrowAngle p q + Real.pi + Real.pi / 6),
           q.y + 20 * Real.sin (arrowAngle p q + Real.pi + Real.pi / 6)⟩) ∧
    arrowHead1 ⟨0, 0⟩ ⟨100, 0⟩ = ⟨100 - 10 * Real.sqrt 3, 10⟩ ∧
    arrowHead2 ⟨0, 0⟩ ⟨100, 0⟩ = ⟨100 - 10 * Real.sqrt 3, -10⟩ := by
  refine ⟨fun p q st => rfl, fun p q => ⟨headDist q.x q.y _, headDist q.x q.y _⟩,
    fun p q => ⟨?_, ?_⟩, ?_, ?_⟩
  · simp only [arrowHead1, Pt.mk.injEq]
    constructor
    · rw [show arrowAngle p q + Real.pi - Real.pi / 6 =
            (arrowAngle p q - Real.pi / 6) + Real.pi by ring, Real.cos_add_pi]
      ring
    · rw [show arrowAngle p q + Real.pi - Real.pi / 6 =
            (arrowAngle p q - Real.pi / 6) + Real.pi by ring, Real.sin_add_pi]
      ring
  · simp only [arrowHead2, Pt.mk.injEq]
    constructor
    · rw [show arrowAngle p q + Real.pi + Real.pi / 6 =
            (arrowAngle p q + Real.pi / 6) + Real.pi by ring, Real.cos_add_pi]
      ring
    · rw [show arrowAngle p q + Real.pi + Real.pi / 6 =
            (arrowAngle p q + Real.pi / 6) + Real.pi by ring, Real.sin_add_pi]
      ring
  · simp only [arrowHead1, arrowAngle_horizontal, Pt.mk.injEq]
    constructor
    · rw [zero_sub, Real.cos_neg, Real.cos_pi_div_six]
      ring
    · rw [show (0 : ℝ) - Real.pi / 6 = -(Real.pi / 6) by ring, Real.sin_neg,
        Real.sin_pi_div_six]
      norm_num
  · simp only [arrowHead2, arrowAngle_horizontal, Pt.mk.injEq]
    constructor
    · rw [zero_add, Real.cos_pi_div_six]
      ring
    · rw [zero_add, Real.sin_pi_div_six]
      norm_num

lemma rectPath_reverse (x y w h : ℝ) : rectPath x y w h = rectPath (x + w) (y + h) (-w) (-h) := by
  unfold rectPath
  have e1 : (⟨x + w + -w, y + h⟩ : Pt) = ⟨x, y + h⟩ := by
    simp only [Pt.mk.injEq]
    exact ⟨by ring, by trivial⟩
  have e2 : (⟨x + w + -w, y + h + -h⟩ : Pt) = ⟨x, y⟩ := by
    simp only [Pt.mk.injEq]
    exact ⟨by ring, by ring⟩
  have e3 : (⟨x + w, y + h + -h⟩ : Pt) = ⟨x + w, y⟩ := by
    simp only [Pt.mk.injEq]
    exact ⟨by trivial, by ring⟩
  rw [e1, e2, e3]
  ext r
  simp only [Set.mem_union]
  tauto

lemma render_op_congr (imgPx : ℕ → Pt → Option String) (o1 o2 : DrawOp) (c : Canvas) (p : Pt)
    (hreg : opRegion o1 = opRegion o2) (hpaint : opPaint o1 = opPaint o2) :
    render imgPx (Canvas.op o1 c) p = render imgPx (Canvas.op o2 c) p := by
  simp only [render]
  by_cases hm : p ∈ opRegion o1
  · rw [if_pos hm, if_pos (hreg ▸ hm), hpaint]
  · rw [if_neg hm, if_neg (fun hc => hm (hreg ▸ hc))]

/-- Claim C6: for every pair of opposite corner points `a` and `b`, the
rectangle tool renders the same set of stroked pixels for a drag from `a` to
`b` as for a drag from `b` to `a`: in any rectangle-tool editor state, over any
base image, the canvases produced by the two drags render identically at every
point (the rectangle primitive receives negative width and height on the
backwards drag and strokes the same four sides). -/
theorem rect_drag_direction_irrelevant (imgPx : ℕ → Pt → Option String)
    (a b p : Pt) (s : EditorState) (moves1 moves2 : List Pt)
    (hctx : s.ctxReady = true) (htool : s.tool = DrawingTool.rectangle)
    (h1 : lastP moves1 = some b) (h2 : lastP moves2 = some a) :
    render imgPx (runDrag a moves1 s).canvas p =
      render imgPx (runDrag b moves2 s).canvas p := by
  obtain ⟨cr, tl, col, dr, sp0, sn0, pp, cv, cs⟩ := s
  have hcr : cr = true := hctx
  subst hcr
  have htl : tl = DrawingTool.rectangle := htool
  subst htl
  have k1 := applyMoves_shape DrawingTool.rectangle (Or.inr (Or.inl rfl)) col moves1 b a cv cv
    (if DrawingTool.rectangle = DrawingTool.pen then [a] else pp) cs h1
  have k2 := applyMoves_shape DrawingTool.rectangle (Or.inr (Or.inl rfl)) col moves2 a b cv cv
    (if DrawingTool.rectangle = DrawingTool.pen then [b] else pp) cs h2
  unfold runDrag
  rw [show handleMouseDown a
        (⟨true, DrawingTool.rectangle, col, dr, sp0, sn0, pp, cv, cs⟩ : EditorState) =
      ⟨true, DrawingTool.rectangle, col, true, some a, some cv,
        if DrawingTool.rectangle = DrawingTool.pen then [a] else pp, cv, cs⟩ from rfl, k1]
  rw [show handleMouseDown b
        (⟨true, DrawingTool.rectangle, col, dr, sp0, sn0, pp, cv, cs⟩ : EditorState) =
      ⟨true, DrawingTool.rectangle, col, true, some b, some cv,
        if DrawingTool.rectangle = DrawingTool.pen then [b] else pp, cv, cs⟩ from rfl, k2]
  show render imgPx
      (Canvas.op (DrawOp.strokeRect a.x a.y (b.x - a.x) (b.y - a.y) (shapeCtx col cs)) cv) p =
    render imgPx
      (Canvas.op (DrawOp.strokeRect b.x b.y (a.x - b.x) (a.y - b.y) (shapeCtx col cs)) cv) p
  apply render_op_congr
  · simp only [opRegion]
    have hp : rectPath a.x a.y (b.x - a.x) (b.y - a.y) =
        rectPath b.x b.y (a.x - b.x) (a.y - b.y) := by
      rw [rectPath_reverse a.x a.y (b.x - a.x) (b.y - a.y),
        show a.x + (b.x - a.x) = b.x by ring,
        show a.y + (b.y - a.y) = b.y by ring,
        show -(b.x - a.x) = a.x - b.x by ring,
        show -(b.y - a.y) = a.y - b.y by ring]
    rw [hp]
  · rfl

/-- Witness for C6: the backwards drag (50,50) to (10,10) and the forwards drag
(10,10) to (50,50) on a freshly loaded rectangle-tool editor render identically
at the origin over an empty image. -/
theorem rect_drag_direction_irrelevant_applied :
    (dispatch (Event.selectTool DrawingTool.rectangle)
        (loadEffect true (some 0) initState)).1.ctxReady = true ∧
    (dispatch (Event.selectTool DrawingTool.rectangle)
        (loadEffect true (some 0) initState)).1.tool = DrawingTool.rectangle ∧
    lastP [⟨10, 10⟩] = some ⟨10, 10⟩ ∧
    lastP [⟨50, 50⟩] = some ⟨50, 50⟩ ∧
    render (fun _ _ => none)
      (runDrag ⟨50, 50⟩ [⟨10, 10⟩]
        (dispatch (Event.selectTool DrawingTool.rectangle)
          (loadEffect true (some 0) initState)).1).canvas ⟨0, 0⟩ =
    render (fun _ _ => none)
      (runDrag ⟨10, 10⟩ [⟨50, 50⟩]
        (dispatch (Event.selectTool DrawingTool.rectangle)
          (loadEffect true (some 0) initState)).1).canvas ⟨0, 0⟩ :=
  ⟨rfl, rfl, rfl, rfl,
    rect_drag_direction_irrelevant (fun _ _ => none) ⟨50, 50⟩ ⟨10, 10⟩ ⟨0, 0⟩ _
      [⟨10, 10⟩] [⟨50, 50⟩] rfl rfl rfl rfl⟩

end
